import Mathlib

/-!
Verification of the encoding-fallback file utilities in
`src/utils/common_utils.py`.

The module under verification reads files with a fixed chain of candidate
text encodings (UTF-8, UTF-8 with BOM, Windows-1252, Latin-1) and a final
lossy UTF-8 decode, both for plain text (`read_file`) and for JSON
(`load_json_file`).

Embedding choices:
* a file's content is a `List Byte` with `Byte := Fin 256`;
* decoded text is a `List Nat` of Unicode code points;
* each codec is a Lean function `List Byte → Option (List Nat)` modelling
  Python's strict `bytes.decode`; the lossy decode is total;
* CPython's `json.loads` is modelled by an executable recursive-descent
  scanner (`jsonLoads`) mirroring the stdlib `json` scanner, including its
  error messages, error positions, and the leading-BOM rejection;
* file access is a partial map from paths to byte contents; a missing
  entry stands for an `OSError` raised by `open`.
-/

set_option autoImplicit false

/-- A byte of file content. -/
abbrev Byte := Fin 256

/-- Code points of an ASCII-compatible Lean string literal, used to write
concrete texts and messages. -/
def strLit (s : String) : List Nat :=
  s.data.map Char.toNat

/-- Concrete byte lists written with plain numerals. -/
def listBytes (l : List Nat) : List Byte :=
  l.map (fun n => (⟨n % 256, Nat.mod_lt n (by decide)⟩ : Byte))

/-- Whether a byte is a UTF-8 continuation byte (0x80–0xBF). -/
def isUtf8Cont (b : Byte) : Bool :=
  decide (0x80 ≤ b.val ∧ b.val ≤ 0xBF)

/-- Admissible range of the first continuation byte of a multi-byte UTF-8
sequence, as a function of the leading byte; encodes the restrictions that
rule out overlong forms, surrogates and code points above U+10FFFF. -/
def utf8FirstContRange (n : Nat) : Nat × Nat :=
  if n = 0xE0 then (0xA0, 0xBF)
  else if n = 0xED then (0x80, 0x9F)
  else if n = 0xF0 then (0x90, 0xBF)
  else if n = 0xF4 then (0x80, 0x8F)
  else (0x80, 0xBF)

/-- Whether a byte value lies in an inclusive range. -/
def inRange (lo hi : Nat) (b : Byte) : Bool :=
  decide (lo ≤ b.val ∧ hi ≥ b.val)

/-- Decode one UTF-8 scalar whose leading byte is `b` and whose following
bytes start `rest`; return the code point and the remaining bytes, or
`none` for an ill-formed sequence. Encodes the restrictions that rule out
overlong forms, surrogates and code points above U+10FFFF. -/
def utf8DecodeOne (b : Byte) (rest : List Byte) : Option (Nat × List Byte) :=
  if b.val < 0x80 then some (b.val, rest)
  else if 0xC2 ≤ b.val ∧ b.val ≤ 0xDF then
    match rest with
    | c1 :: r1 =>
      if inRange 0x80 0xBF c1 then
        some ((b.val - 0xC0) * 64 + (c1.val - 0x80), r1)
      else none
    | [] => none
  else if 0xE0 ≤ b.val ∧ b.val ≤ 0xEF then
    match rest with
    | c1 :: c2 :: r2 =>
      if inRange (utf8FirstContRange b.val).1 (utf8FirstContRange b.val).2 c1 ∧
          inRange 0x80 0xBF c2 then
        some ((b.val - 0xE0) * 4096 + (c1.val - 0x80) * 64 + (c2.val - 0x80), r2)
      else none
    | _ => none
  else if 0xF0 ≤ b.val ∧ b.val ≤ 0xF4 then
    match rest with
    | c1 :: c2 :: c3 :: r3 =>
      if inRange (utf8FirstContRange b.val).1 (utf8FirstContRange b.val).2 c1 ∧
          inRange 0x80 0xBF c2 ∧ inRange 0x80 0xBF c3 then
        some ((b.val - 0xF0) * 262144 + (c1.val - 0x80) * 4096 +
          (c2.val - 0x80) * 64 + (c3.val - 0x80), r3)
      else none
    | _ => none
  else none

/-- Worker for strict UTF-8 decoding: decode scalars one at a time. The
fuel only bounds the number of scalars and is never exhausted when it
starts at the byte count, since every scalar consumes at least one
byte. -/
def utf8DecodeAux : Nat → List Byte → Option (List Nat)
  | _, [] => some []
  | 0, _ :: _ => none
  | f + 1, b :: rest =>
    match utf8DecodeOne b rest with
    | none => none
    | some (cp, r) => (utf8DecodeAux f r).map (fun t => cp :: t)

/-- Strict UTF-8 decoding of a byte list into code points, modelling
Python's `bytes.decode("utf-8")` with `errors="strict"`: `none` models a
`UnicodeDecodeError`. -/
def utf8Decode (data : List Byte) : Option (List Nat) :=
  utf8DecodeAux data.length data

/-- Worker for the lossy UTF-8 decode; the fuel argument only bounds the
recursion depth and is never exhausted when it starts at the byte count,
since every step consumes at least one byte. -/
def utf8ReplaceAux : Nat → List Byte → List Nat
  | 0, _ => []
  | _ + 1, [] => []
  | fuel + 1, b :: rest =>
    let n := b.val
    if n < 0x80 then n :: utf8ReplaceAux fuel rest
    else if 0xC2 ≤ n ∧ n ≤ 0xDF then
      match rest with
      | [] => [0xFFFD]
      | c1 :: r1 =>
        if inRange 0x80 0xBF c1 then
          ((n - 0xC0) * 64 + (c1.val - 0x80)) :: utf8ReplaceAux fuel r1
        else 0xFFFD :: utf8ReplaceAux fuel rest
    else if 0xE0 ≤ n ∧ n ≤ 0xEF then
      match rest with
      | [] => [0xFFFD]
      | c1 :: r1 =>
        let p := utf8FirstContRange n
        if inRange p.1 p.2 c1 then
          match r1 with
          | [] => [0xFFFD]
          | c2 :: r2 =>
            if isUtf8Cont c2 then
              ((n - 0xE0) * 4096 + (c1.val - 0x80) * 64 + (c2.val - 0x80)) ::
                utf8ReplaceAux fuel r2
            else 0xFFFD :: utf8ReplaceAux fuel r1
        else 0xFFFD :: utf8ReplaceAux fuel rest
    else if 0xF0 ≤ n ∧ n ≤ 0xF4 then
      match rest with
      | [] => [0xFFFD]
      | c1 :: r1 =>
        let p := utf8FirstContRange n
        if inRange p.1 p.2 c1 then
          match r1 with
          | [] => [0xFFFD]
          | c2 :: r2 =>
            if isUtf8Cont c2 then
              match r2 with
              | [] => [0xFFFD]
              | c3 :: r3 =>
                if isUtf8Cont c3 then
                  ((n - 0xF0) * 262144 + (c1.val - 0x80) * 4096 +
                    (c2.val - 0x80) * 64 + (c3.val - 0x80)) :: utf8ReplaceAux fuel r3
                else 0xFFFD :: utf8ReplaceAux fuel r2
            else 0xFFFD :: utf8ReplaceAux fuel r1
        else 0xFFFD :: utf8ReplaceAux fuel rest
    else 0xFFFD :: utf8ReplaceAux fuel rest

/-- Lossy UTF-8 decoding, modelling `bytes.decode("utf-8", errors="replace")`:
every maximal ill-formed subsequence part is replaced by one U+FFFD, so the
decode is total. -/
def utf8DecodeReplace (data : List Byte) : List Nat :=
  utf8ReplaceAux data.length data

/-- The UTF-8 byte-order-mark EF BB BF. -/
def bomBytes : List Byte :=
  [(0xEF : Byte), (0xBB : Byte), (0xBF : Byte)]

/-- Python's `utf-8-sig` codec: strip a leading BOM when present, then
decode as strict UTF-8. -/
def utf8SigDecode (data : List Byte) : Option (List Nat) :=
  if data.take 3 = bomBytes then utf8Decode (data.drop 3)
  else utf8Decode data

/-- The Windows-1252 value of a single byte; `none` for the five bytes the
codec leaves undefined (0x81, 0x8D, 0x8F, 0x90, 0x9D), which raise in
strict mode. -/
def cp1252Byte (n : Nat) : Option Nat :=
  if n < 0x80 ∨ 0xA0 ≤ n then some n
  else if n = 0x80 then some 0x20AC
  else if n = 0x82 then some 0x201A
  else if n = 0x83 then some 0x0192
  else if n = 0x84 then some 0x201E
  else if n = 0x85 then some 0x2026
  else if n = 0x86 then some 0x2020
  else if n = 0x87 then some 0x2021
  else if n = 0x88 then some 0x02C6
  else if n = 0x89 then some 0x2030
  else if n = 0x8A then some 0x0160
  else if n = 0x8B then some 0x2039
  else if n = 0x8C then some 0x0152
  else if n = 0x8E then some 0x017D
  else if n = 0x91 then some 0x2018
  else if n = 0x92 then some 0x2019
  else if n = 0x93 then some 0x201C
  else if n = 0x94 then some 0x201D
  else if n = 0x95 then some 0x2022
  else if n = 0x96 then some 0x2013
  else if n = 0x97 then some 0x2014
  else if n = 0x98 then some 0x02DC
  else if n = 0x99 then some 0x2122
  else if n = 0x9A then some 0x0161
  else if n = 0x9B then some 0x203A
  else if n = 0x9C then some 0x0153
  else if n = 0x9E then some 0x017E
  else if n = 0x9F then some 0x0178
  else none

/-- Strict Windows-1252 decoding of a byte list. -/
def cp1252Decode (data : List Byte) : Option (List Nat) :=
  data.mapM (fun b => cp1252Byte b.val)

/-- Latin-1 (ISO-8859-1) decoding: every byte maps to the code point of the
same value, so strict decoding never fails. -/
def latin1Decode (data : List Byte) : Option (List Nat) :=
  some (data.map Fin.val)

/-- The fixed candidate encoding list `["utf-8", "utf-8-sig", "cp1252",
"latin-1"]` shared by `_read_text_with_fallback` and `load_json_file`,
each identifier replaced by the corresponding strict decoder. -/
def encodings : List (List Byte → Option (List Nat)) :=
  [utf8Decode, utf8SigDecode, cp1252Decode, latin1Decode]

/-- Universal-newline translation performed by Python's text-mode `open`:
a CR LF pair and a lone CR both become a single LF. -/
def universalNewlines : List Nat → List Nat
  | [] => []
  | 13 :: 10 :: r => 10 :: universalNewlines r
  | 13 :: r => 10 :: universalNewlines r
  | c :: r => c :: universalNewlines r

/-- Reading a whole file in text mode under one strict codec:
decode the bytes, then apply universal-newline translation; `none` models
the `UnicodeDecodeError` raised during `f.read()`. -/
def readTextMode (dec : List Byte → Option (List Nat)) (data : List Byte) :
    Option (List Nat) :=
  (dec data).map universalNewlines

/-- The `_read_text_with_fallback` helper: try the four strict encodings in
order and return the first successful text-mode read; as a last resort
re-read with lossy UTF-8 (`errors="replace"`). -/
def _read_text_with_fallback (data : List Byte) : List Nat :=
  match readTextMode utf8Decode data with
  | some t => t
  | none =>
    match readTextMode utf8SigDecode data with
    | some t => t
    | none =>
      match readTextMode cp1252Decode data with
      | some t => t
      | none =>
        match readTextMode latin1Decode data with
        | some t => t
        | none => universalNewlines (utf8DecodeReplace data)

/-- Python's `str.isspace` set, the characters removed by `str.strip()`. -/
def isPySpace (c : Nat) : Bool :=
  decide ((0x09 ≤ c ∧ c ≤ 0x0D) ∨ (0x1C ≤ c ∧ c ≤ 0x1F) ∨ c = 0x20 ∨
    c = 0x85 ∨ c = 0xA0 ∨ c = 0x1680 ∨ (0x2000 ≤ c ∧ c ≤ 0x200A) ∨
    c = 0x2028 ∨ c = 0x2029 ∨ c = 0x202F ∨ c = 0x205F ∨ c = 0x3000)

/-- Python's `str.strip()`: drop leading and trailing whitespace. -/
def pyStrip (s : List Nat) : List Nat :=
  ((s.dropWhile isPySpace).reverse.dropWhile isPySpace).reverse

/-- The `read_file` operation on a file's byte content: read with encoding
fallback, then strip surrounding whitespace. -/
def read_file (data : List Byte) : List Nat :=
  pyStrip (_read_text_with_fallback data)

/-- Outcome of the i-th file-read attempt inside `_read_text_with_fallback`
(0–3 the strict candidates, 4 the lossy last resort, which always
succeeds). -/
def readAttemptOutcome (data : List Byte) : Nat → Option (List Nat)
  | 0 => readTextMode utf8Decode data
  | 1 => readTextMode utf8SigDecode data
  | 2 => readTextMode cp1252Decode data
  | 3 => readTextMode latin1Decode data
  | 4 => some (universalNewlines (utf8DecodeReplace data))
  | _ => none

/-- How many times `_read_text_with_fallback` opens the file: one open per
attempted codec, plus one more only if the lossy last resort runs. -/
def readOpenCount (data : List Byte) : Nat :=
  if (readTextMode utf8Decode data).isSome then 1
  else if (readTextMode utf8SigDecode data).isSome then 2
  else if (readTextMode cp1252Decode data).isSome then 3
  else if (readTextMode latin1Decode data).isSome then 4
  else 5

/-- First successful strict text-mode read over a list of codecs. -/
def firstStrictRead : List (List Byte → Option (List Nat)) → List Byte →
    Option (List Nat)
  | [], _ => none
  | d :: ds, data =>
    match readTextMode d data with
    | some t => some t
    | none => firstStrictRead ds data

/-- Result of the strict four-candidate loop, before the lossy fallback. -/
def strictChainResult (data : List Byte) : Option (List Nat) :=
  firstStrictRead encodings data

/-- Parsed JSON values. Numeric literals and the non-standard constants
accepted by Python (`NaN`, `Infinity`, `-Infinity`) are kept as their
source tokens, which identifies values exactly as finely as the parse
itself does. Objects hold key/value pairs with Python dict semantics
(first-insertion order, last duplicate wins). -/
inductive Json where
  | null
  | bool (b : Bool)
  | num (tok : List Nat)
  | const (tok : List Nat)
  | str (chars : List Nat)
  | arr (elems : List Json)
  | obj (pairs : List (List Nat × Json))

/-- Python's `json.JSONDecodeError`: a message, the document being parsed,
and the failure position. -/
structure JsonError where
  msg : List Nat
  doc : List Nat
  pos : Nat

/-- The whitespace characters skipped between JSON tokens. -/
def isJsonWS (c : Nat) : Bool :=
  c == 0x20 || c == 0x09 || c == 0x0A || c == 0x0D

/-- First index at or after `i` holding a non-whitespace character. -/
def skipWS (s : List Nat) (i : Nat) : Nat :=
  i + ((s.drop i).takeWhile isJsonWS).length

/-- Whether the literal `w` occurs in `s` starting at index `i`. -/
def litAt (s : List Nat) (i : Nat) (w : List Nat) : Bool :=
  (s.drop i).take w.length == w

/-- Value of one hexadecimal digit character. -/
def hexVal (c : Nat) : Option Nat :=
  if 0x30 ≤ c ∧ c ≤ 0x39 then some (c - 0x30)
  else if 0x41 ≤ c ∧ c ≤ 0x46 then some (c - 0x41 + 10)
  else if 0x61 ≤ c ∧ c ≤ 0x66 then some (c - 0x61 + 10)
  else none

/-- Value of the four hexadecimal digits at indices `i .. i+3`. -/
def hex4 (s : List Nat) (i : Nat) : Option Nat :=
  match (s[i]?).bind hexVal, (s[i+1]?).bind hexVal,
      (s[i+2]?).bind hexVal, (s[i+3]?).bind hexVal with
  | some a, some b, some c, some d => some (a * 4096 + b * 256 + c * 16 + d)
  | _, _, _, _ => none

/-- The JSON short escapes following a backslash. -/
def escChar (e : Nat) : Option Nat :=
  if e = 0x22 then some 0x22
  else if e = 0x5C then some 0x5C
  else if e = 0x2F then some 0x2F
  else if e = 0x62 then some 0x08
  else if e = 0x66 then some 0x0C
  else if e = 0x6E then some 0x0A
  else if e = 0x72 then some 0x0D
  else if e = 0x74 then some 0x09
  else none

/-- Character of the hexadecimal digit `n` (lower case). -/
def hexDigitChar (n : Nat) : Nat :=
  if n < 10 then 0x30 + n else 0x57 + n

/-- Python `repr` of a one-character string, as interpolated by the
scanner's `{0!r}` message formats; control characters use the `\xHH`
form, tab, newline and carriage return their short escapes. -/
def pyCharRepr (c : Nat) : List Nat :=
  if c = 0x09 then [0x27, 0x5C, 0x74, 0x27]
  else if c = 0x0A then [0x27, 0x5C, 0x6E, 0x27]
  else if c = 0x0D then [0x27, 0x5C, 0x72, 0x27]
  else if c = 0x27 then [0x22, 0x27, 0x22]
  else if c = 0x5C then [0x27, 0x5C, 0x5C, 0x27]
  else if c < 0x20 ∨ c = 0x7F then
    [0x27, 0x5C, 0x78, hexDigitChar (c / 16), hexDigitChar (c % 16), 0x27]
  else [0x27, c, 0x27]

/-- Worker of the string scanner (`py_scanstring`): `bg` is the index of
the opening quote, `i` the scan position, `acc` the decoded characters in
reverse. Fuel bounds the number of loop iterations; each iteration
advances `i`, so `s.length + 1` is always enough. -/
def scanStringAux (s : List Nat) (bg : Nat) :
    Nat → Nat → List Nat → Except JsonError (List Nat × Nat)
  | 0, _, _ => .error ⟨strLit "Unterminated string starting at", s, bg⟩
  | fuel + 1, i, acc =>
    match s[i]? with
    | none => .error ⟨strLit "Unterminated string starting at", s, bg⟩
    | some c =>
      if c = 0x22 then .ok (acc.reverse, i + 1)
      else if c = 0x5C then
        match s[i+1]? with
        | none => .error ⟨strLit "Unterminated string starting at", s, bg⟩
        | some e =>
          if e = 0x75 then
            match hex4 s (i + 2) with
            | none => .error ⟨strLit "Invalid \\uXXXX escape", s, i + 1⟩
            | some u =>
              if 0xD800 ≤ u ∧ u ≤ 0xDBFF ∧ s[i+6]? = some 0x5C ∧
                  s[i+7]? = some 0x75 then
                match hex4 s (i + 8) with
                | none => .error ⟨strLit "Invalid \\uXXXX escape", s, i + 7⟩
                | some u2 =>
                  if 0xDC00 ≤ u2 ∧ u2 ≤ 0xDFFF then
                    scanStringAux s bg fuel (i + 12)
                      ((0x10000 + (u - 0xD800) * 0x400 + (u2 - 0xDC00)) :: acc)
                  else scanStringAux s bg fuel (i + 6) (u :: acc)
              else scanStringAux s bg fuel (i + 6) (u :: acc)
          else
            match escChar e with
            | some ch => scanStringAux s bg fuel (i + 2) (ch :: acc)
            | none =>
              .error ⟨strLit "Invalid \\escape: " ++ pyCharRepr e, s, i + 1⟩
      else if c < 0x20 then
        .error ⟨strLit "Invalid control character " ++ pyCharRepr c ++
          strLit " at", s, i⟩
      else scanStringAux s bg fuel (i + 1) (c :: acc)

/-- Scan the JSON string whose opening quote sits at index `bg`; return
the decoded characters and the index just past the closing quote. -/
def scanString (s : List Nat) (bg : Nat) :
    Except JsonError (List Nat × Nat) :=
  scanStringAux s bg (s.length + 1) (bg + 1) []

/-- Whether a character is a decimal digit. -/
def isDigit (c : Nat) : Bool :=
  decide (0x30 ≤ c ∧ c ≤ 0x39)

/-- Length of the run of digits starting at index `i`. -/
def digitRun (s : List Nat) (i : Nat) : Nat :=
  ((s.drop i).takeWhile isDigit).length

/-- End of the optional exponent part starting at `i` (the `[eE][-+]?\d+`
group of the scanner's number regex); `i` itself when the group is
absent. -/
def expEnd (s : List Nat) (i : Nat) : Nat :=
  match s[i]? with
  | some c =>
    if c = 0x65 ∨ c = 0x45 then
      let j := if s[i+1]? = some 0x2B ∨ s[i+1]? = some 0x2D then i + 2 else i + 1
      if 0 < digitRun s j then j + digitRun s j else i
    else i
  | none => i

/-- End of the optional fraction part starting at `i` (the `\.\d+` group);
`i` itself when the group is absent. -/
def fracEnd (s : List Nat) (i : Nat) : Nat :=
  if s[i]? = some 0x2E ∧ 0 < digitRun s (i + 1) then i + 1 + digitRun s (i + 1)
  else i

/-- Match the scanner's number regex `(-?(?:0|[1-9]\d*))(\.\d+)?([eE][-+]?\d+)?`
at index `i`; return the end of the match. -/
def matchNumber (s : List Nat) (i : Nat) : Option Nat :=
  let i1 := if s[i]? = some 0x2D then i + 1 else i
  match s[i1]? with
  | none => none
  | some c =>
    if c = 0x30 then some (expEnd s (fracEnd s (i1 + 1)))
    else if isDigit c then
      some (expEnd s (fracEnd s (i1 + digitRun s i1)))
    else none

/-- Insert a key/value pair with Python dict semantics: an existing key
keeps its position and takes the new value, a new key goes to the end. -/
def insertPair (acc : List (List Nat × Json)) (k : List Nat) (v : Json) :
    List (List Nat × Json) :=
  if acc.any (fun p => p.1 == k) then
    acc.map (fun p => if p.1 == k then (k, v) else p)
  else acc ++ [(k, v)]

/-- Continuations of the scanner: scanning a value at an index, scanning
object members from the index of a key's opening quote, or scanning array
elements. This defunctionalizes the mutual recursion of the stdlib
scanner (`scan_once` / `JSONObject` / `JSONArray`) into one function that
is structurally recursive on its fuel. -/
inductive ScanTask where
  | value (i : Nat)
  | members (qpos : Nat) (acc : List (List Nat × Json))
  | elems (i : Nat) (acc : List Json)

/-- Input position a task is looking at, used only for the (unreachable
with adequate fuel) out-of-fuel error. -/
def taskPos : ScanTask → Nat
  | .value i => i
  | .members qpos _ => qpos
  | .elems i _ => i

/-- One scanner worker covering values, object members and array elements,
mirroring the stdlib `json` scanner including its error messages and
positions. Each recursive call consumes input, so fuel `2 * s.length + 2`
can never run out. -/
def scanStep : Nat → List Nat → ScanTask → Except JsonError (Json × Nat)
  | 0, s, t => .error ⟨strLit "Expecting value", s, taskPos t⟩
  | fuel + 1, s, .value i =>
    match s[i]? with
    | none => .error ⟨strLit "Expecting value", s, i⟩
    | some c =>
      if c = 0x22 then
        match scanString s i with
        | .error e => .error e
        | .ok (cs, e1) => .ok (.str cs, e1)
      else if c = 0x7B then
        let j := skipWS s (i + 1)
        match s[j]? with
        | none =>
          .error ⟨strLit "Expecting property name enclosed in double quotes",
            s, j⟩
        | some c2 =>
          if c2 = 0x7D then .ok (.obj [], j + 1)
          else if c2 = 0x22 then scanStep fuel s (.members j [])
          else
            .error ⟨strLit "Expecting property name enclosed in double quotes",
              s, j⟩
      else if c = 0x5B then
        let j := skipWS s (i + 1)
        if s[j]? = some 0x5D then .ok (.arr [], j + 1)
        else scanStep fuel s (.elems j [])
      else if litAt s i (strLit "null") then .ok (.null, i + 4)
      else if litAt s i (strLit "true") then .ok (.bool true, i + 4)
      else if litAt s i (strLit "false") then .ok (.bool false, i + 5)
      else
        match matchNumber s i with
        | some e1 => .ok (.num ((s.drop i).take (e1 - i)), e1)
        | none =>
          if litAt s i (strLit "NaN") then .ok (.const (strLit "NaN"), i + 3)
          else if litAt s i (strLit "Infinity") then
            .ok (.const (strLit "Infinity"), i + 8)
          else if litAt s i (strLit "-Infinity") then
            .ok (.const (strLit "-Infinity"), i + 9)
          else .error ⟨strLit "Expecting value", s, i⟩
  | fuel + 1, s, .members qpos acc =>
    match scanString s qpos with
    | .error e => .error e
    | .ok (key, e1) =>
      let j := skipWS s e1
      if s[j]? = some 0x3A then
        let k := skipWS s (j + 1)
        match scanStep fuel s (.value k) with
        | .error e => .error e
        | .ok (v, e2) =>
          let acc2 := insertPair acc key v
          let m := skipWS s e2
          match s[m]? with
          | none => .error ⟨strLit "Expecting " ++ [0x27, 0x2C, 0x27] ++ strLit " delimiter", s, m⟩
          | some c =>
            if c = 0x7D then .ok (.obj acc2, m + 1)
            else if c = 0x2C then
              let q := skipWS s (m + 1)
              if s[q]? = some 0x22 then scanStep fuel s (.members q acc2)
              else
                .error
                  ⟨strLit "Expecting property name enclosed in double quotes",
                    s, q⟩
            else .error ⟨strLit "Expecting " ++ [0x27, 0x2C, 0x27] ++ strLit " delimiter", s, m⟩
      else .error ⟨strLit "Expecting " ++ [0x27, 0x3A, 0x27] ++ strLit " delimiter", s, j⟩
  | fuel + 1, s, .elems i acc =>
    match scanStep fuel s (.value i) with
    | .error e => .error e
    | .ok (v, e1) =>
      let m := skipWS s e1
      match s[m]? with
      | none => .error ⟨strLit "Expecting " ++ [0x27, 0x2C, 0x27] ++ strLit " delimiter", s, m⟩
      | some c =>
        if c = 0x5D then .ok (.arr (acc ++ [v]), m + 1)
        else if c = 0x2C then
          scanStep fuel s (.elems (skipWS s (m + 1)) (acc ++ [v]))
        else .error ⟨strLit "Expecting " ++ [0x27, 0x2C, 0x27] ++ strLit " delimiter", s, m⟩

/-- Python's `json.loads` on already-decoded text: reject a leading BOM
character, skip leading whitespace, scan one value, and require only
whitespace after it. -/
def jsonLoads (s : List Nat) : Except JsonError Json :=
  if s.take 1 = [0xFEFF] then
    .error ⟨strLit "Unexpected UTF-8 BOM (decode using utf-8-sig)", s, 0⟩
  else
    match scanStep (2 * s.length + 2) s (.value (skipWS s 0)) with
    | .error e => .error e
    | .ok (v, e1) =>
      match s[skipWS s e1]? with
      | none => .ok v
      | some _ => .error ⟨strLit "Extra data", s, skipWS s e1⟩

/-- The per-encoding loop of `load_json_file`: decode the raw bytes under
each candidate in turn; both a decode failure (`UnicodeDecodeError`) and a
parse failure (`JSONDecodeError`) fall through to the next candidate, a
parse success returns immediately. `none` means the loop exhausted its
candidates (the unused `last_error` variable of the source is dropped). -/
def tryEncodings : List (List Byte → Option (List Nat)) → List Byte →
    Option Json
  | [], _ => none
  | d :: ds, data =>
    match d data with
    | none => tryEncodings ds data
    | some text =>
      match jsonLoads text with
      | .ok v => some v
      | .error _ => tryEncodings ds data

/-- The message of the error re-raised by `load_json_file`:
`f"Failed to decode/parse JSON from {file_path}: {e.msg}"`. -/
def composedMsg (filePath msg : List Nat) : List Nat :=
  strLit "Failed to decode/parse JSON from " ++ filePath ++ strLit ": " ++ msg

/-- `load_json_file` starting from an arbitrary tail of the candidate
list: run the per-encoding loop, then as a final attempt decode with
lossy UTF-8 and parse, re-wrapping a final parse error with the file
path while keeping the original document and position. -/
def loadJsonFrom (encs : List (List Byte → Option (List Nat)))
    (filePath : List Nat) (data : List Byte) : Except JsonError Json :=
  match tryEncodings encs data with
  | some v => .ok v
  | none =>
    match jsonLoads (utf8DecodeReplace data) with
    | .ok v => .ok v
    | .error e => .error ⟨composedMsg filePath e.msg, e.doc, e.pos⟩

/-- The `load_json_file` operation on a file path and its byte content. -/
def load_json_file (filePath : List Nat) (data : List Byte) :
    Except JsonError Json :=
  loadJsonFrom encodings filePath data

/-- The parse outcome viewed as an option (success value or nothing). -/
def jsonParseOpt (t : List Nat) : Option Json :=
  match jsonLoads t with
  | .ok v => some v
  | .error _ => none

/-- Whether a candidate decoder both decodes the bytes and yields text
that parses as JSON, and if so the parsed value. -/
def decodeParse (d : List Byte → Option (List Nat)) (data : List Byte) :
    Option Json :=
  (d data).bind jsonParseOpt

/-- The first candidate (in list order) for which decoding and parsing
both succeed, and its parsed value — the specification-side reading of
the per-encoding loop. -/
def firstJsonSuccess : List (List Byte → Option (List Nat)) → List Byte →
    Option Json
  | [], _ => none
  | d :: ds, data =>
    match decodeParse d data with
    | some v => some v
    | none => firstJsonSuccess ds data

/-- Failures observable by callers of the two operations: a file-system
error from `open` (carrying the path it was raised for), or a JSON decode
error. `UnicodeDecodeError` has no constructor here because it can never
escape the module. -/
inductive PyError where
  | osError (path : List Nat)
  | jsonDecodeError (e : JsonError)

/-- A file system: a partial map from paths to byte contents; `none`
models a path `open` fails on (missing file, permission denied, ...). -/
def FileSystem : Type :=
  List Nat → Option (List Byte)

/-- `read_file` including file access: a failing `open` propagates as the
file-system error; otherwise the pure byte-content function runs. -/
def read_file_io (fs : FileSystem) (path : List Nat) :
    Except PyError (List Nat) :=
  match fs path with
  | none => .error (.osError path)
  | some data => .ok (read_file data)

/-- `load_json_file` including file access. -/
def load_json_file_io (fs : FileSystem) (path : List Nat) :
    Except PyError Json :=
  match fs path with
  | none => .error (.osError path)
  | some data =>
    match load_json_file path data with
    | .ok v => .ok v
    | .error e => .error (.jsonDecodeError e)

lemma tryEncodings_eq_firstJsonSuccess
    (encs : List (List Byte → Option (List Nat))) (data : List Byte) :
    tryEncodings encs data = firstJsonSuccess encs data := by
  induction encs with
  | nil => rfl
  | cons d ds ih =>
    simp only [tryEncodings, firstJsonSuccess, decodeParse, jsonParseOpt]
    cases hd : d data with
    | none => simpa using ih
    | some t =>
      cases hj : jsonLoads t with
      | ok v => simp [hj]
      | error e => simp [hj, ih]

lemma utf8DecodeOne_length (b : Byte) (rest : List Byte) (cp : Nat)
    (r : List Byte) (h : utf8DecodeOne b rest = some (cp, r)) :
    r.length ≤ rest.length := by
  unfold utf8DecodeOne at h
  repeat' split at h
  all_goals first
    | exact Option.noConfusion h
    | (injection h with h3; injection h3 with h4 h5; subst h5;
        (try simp only [List.length_cons]); omega)

lemma utf8DecodeAux_congr :
    ∀ (f g : Nat) (data : List Byte), data.length ≤ f → data.length ≤ g →
      utf8DecodeAux f data = utf8DecodeAux g data := by
  intro f
  induction f with
  | zero =>
    intro g data hf hg
    cases data with
    | nil =>
      cases g with
      | zero => rfl
      | succ g2 => rfl
    | cons b rest => simp at hf
  | succ f2 ih =>
    intro g data hf hg
    cases data with
    | nil =>
      cases g with
      | zero => rfl
      | succ g2 => rfl
    | cons b rest =>
      cases g with
      | zero => simp at hg
      | succ g2 =>
        simp only [utf8DecodeAux]
        cases h1 : utf8DecodeOne b rest with
        | none => rfl
        | some p =>
          obtain ⟨cp, r⟩ := p
          have hr := utf8DecodeOne_length b rest cp r h1
          simp only [List.length_cons] at hf hg
          dsimp only
          rw [ih g2 r (by omega) (by omega)]

lemma utf8Decode_bom (data : List Byte) :
    utf8Decode (bomBytes ++ data) =
      (utf8Decode data).map (fun t => 0xFEFF :: t) := by
  have hd : bomBytes ++ data =
      (0xEF : Byte) :: (0xBB : Byte) :: (0xBF : Byte) :: data := rfl
  rw [hd]
  show utf8DecodeAux (data.length + 1 + 1 + 1)
    ((0xEF : Byte) :: (0xBB : Byte) :: (0xBF : Byte) :: data) = _
  simp only [utf8DecodeAux]
  have h1 : utf8DecodeOne (0xEF : Byte) ((0xBB : Byte) :: (0xBF : Byte) :: data) =
      some (0xFEFF, data) := rfl
  rw [h1]
  dsimp only
  exact congrArg _
    (utf8DecodeAux_congr (data.length + 1 + 1) data.length data (by omega)
      (by omega))

lemma utf8SigDecode_bom (data : List Byte) :
    utf8SigDecode (bomBytes ++ data) = utf8Decode data := by
  simp [utf8SigDecode, bomBytes, List.take, List.drop]

lemma jsonLoads_feff (t : List Nat) :
    jsonLoads (0xFEFF :: t) =
      .error ⟨strLit "Unexpected UTF-8 BOM (decode using utf-8-sig)",
        0xFEFF :: t, 0⟩ := by
  simp [jsonLoads, List.take]

lemma scanStringAux_doc (s : List Nat) (bg : Nat) :
    ∀ (fuel i : Nat) (acc : List Nat) (e : JsonError),
      scanStringAux s bg fuel i acc = .error e → e.doc = s := by
  intro fuel
  induction fuel with
  | zero =>
    intro i acc e h
    simp only [scanStringAux] at h
    injection h with h2
    subst h2
    rfl
  | succ n ih =>
    intro i acc e h
    simp only [scanStringAux] at h
    repeat' split at h
    all_goals first
      | exact Except.noConfusion h
      | exact ih _ _ _ h
      | (injection h with h2; subst h2; rfl)

lemma scanString_doc (s : List Nat) (bg : Nat) (e : JsonError)
    (h : scanString s bg = .error e) : e.doc = s :=
  scanStringAux_doc s bg _ _ _ _ h

lemma scanStep_doc (s : List Nat) :
    ∀ (fuel : Nat) (t : ScanTask) (e : JsonError),
      scanStep fuel s t = .error e → e.doc = s := by
  intro fuel
  induction fuel with
  | zero =>
    intro t e h
    simp only [scanStep] at h
    injection h with h2
    subst h2
    rfl
  | succ n ih =>
    intro t e h
    cases t with
    | value i =>
      simp only [scanStep] at h
      repeat' split at h
      all_goals first
        | exact Except.noConfusion h
        | exact ih _ _ h
        | (injection h with h2; subst h2;
            first
              | rfl
              | exact ih _ _ (by assumption)
              | exact scanString_doc _ _ _ (by assumption))
    | members qpos acc =>
      simp only [scanStep] at h
      repeat' split at h
      all_goals first
        | exact Except.noConfusion h
        | exact ih _ _ h
        | (injection h with h2; subst h2;
            first
              | rfl
              | exact ih _ _ (by assumption)
              | exact scanString_doc _ _ _ (by assumption))
    | elems i acc =>
      simp only [scanStep] at h
      repeat' split at h
      all_goals first
        | exact Except.noConfusion h
        | exact ih _ _ h
        | (injection h with h2; subst h2;
            first
              | rfl
              | exact ih _ _ (by assumption)
              | exact scanString_doc _ _ _ (by assumption))

lemma jsonLoads_doc (s : List Nat) (e : JsonError)
    (h : jsonLoads s = .error e) : e.doc = s := by
  unfold jsonLoads at h
  split at h
  · injection h with h2
    subst h2
    rfl
  · repeat' split at h
    all_goals first
      | exact Except.noConfusion h
      | (injection h with h2; subst h2;
          first
            | rfl
            | exact scanStep_doc _ _ _ _ (by assumption))

/-- C1: `load_json_file` attempts the candidate encodings in the fixed
order UTF-8, UTF-8-with-BOM, Windows-1252, Latin-1, and returns the
parsed JSON value of the first candidate for which both decoding and
JSON-parsing succeed, without attempting any later candidate. -/
theorem load_json_file_first_success (path : List Nat) (data : List Byte)
    (v : Json) (h : firstJsonSuccess encodings data = some v) :
    load_json_file path data = .ok v := by
  unfold load_json_file loadJsonFrom
  rw [tryEncodings_eq_firstJsonSuccess, h]

theorem load_json_file_first_success_witness :
    firstJsonSuccess encodings (listBytes [0x31]) = some (.num [0x31]) ∧
    load_json_file (strLit "cfg.json") (listBytes [0x31]) = .ok (.num [0x31]) :=
  ⟨rfl, load_json_file_first_success (strLit "cfg.json") (listBytes [0x31])
    (.num [0x31]) rfl⟩

/-- C2: for every existing readable file, whatever its byte content, some
attempt of the fallback chain succeeds — the earlier strict attempts all
having failed — and `read_file` returns that attempt's text stripped, so a
decoding error never reaches the caller. -/
theorem read_file_absorbs_decode_errors (fs : FileSystem) (path : List Nat)
    (data : List Byte) (h : fs path = some data) :
    ∃ i t, i < 5 ∧ readAttemptOutcome data i = some t ∧
      (∀ j, j < i → readAttemptOutcome data j = none) ∧
      read_file_io fs path = .ok (pyStrip t) := by
  have hv : read_file_io fs path = .ok (read_file data) := by
    unfold read_file_io
    rw [h]
  cases h0 : readTextMode utf8Decode data with
  | some t =>
    refine ⟨0, t, by omega, h0, fun j hj => absurd hj (by omega), ?_⟩
    rw [hv]
    simp [read_file, _read_text_with_fallback, h0]
  | none =>
    cases h1 : readTextMode utf8SigDecode data with
    | some t =>
      refine ⟨1, t, by omega, h1, ?_, ?_⟩
      · intro j hj
        interval_cases j
        exact h0
      · rw [hv]
        simp [read_file, _read_text_with_fallback, h0, h1]
    | none =>
      cases h2 : readTextMode cp1252Decode data with
      | some t =>
        refine ⟨2, t, by omega, h2, ?_, ?_⟩
        · intro j hj
          interval_cases j
          · exact h0
          · exact h1
        · rw [hv]
          simp [read_file, _read_text_with_fallback, h0, h1, h2]
      | none =>
        refine ⟨3, universalNewlines (data.map Fin.val), by omega, rfl, ?_, ?_⟩
        · intro j hj
          interval_cases j
          · exact h0
          · exact h1
          · exact h2
        · rw [hv]
          have h3 : readTextMode latin1Decode data =
              some (universalNewlines (data.map Fin.val)) := rfl
          simp [read_file, _read_text_with_fallback, h0, h1, h2, h3]

theorem read_file_absorbs_decode_errors_witness :
    ∃ i t, i < 5 ∧ readAttemptOutcome (listBytes [0x81]) i = some t ∧
      (∀ j, j < i → readAttemptOutcome (listBytes [0x81]) j = none) ∧
      read_file_io
        (fun p => if p = strLit "notes.txt" then some (listBytes [0x81])
          else none)
        (strLit "notes.txt") = .ok (pyStrip t) :=
  read_file_absorbs_decode_errors _ (strLit "notes.txt") (listBytes [0x81]) rfl

/-- C3: when the file's bytes decode under the first candidate (UTF-8),
`read_file` returns exactly that decoded text — after text-mode newline
translation — with surrounding whitespace stripped; in particular a UTF-8
ASCII file with surrounding whitespace yields the bare content and an
empty file yields the empty string. -/
theorem read_file_utf8_stripped (data : List Byte) (t : List Nat)
    (h : utf8Decode data = some t) :
    read_file data = pyStrip (universalNewlines t) := by
  simp [read_file, _read_text_with_fallback, readTextMode, h]

theorem read_file_utf8_stripped_witness :
    read_file (listBytes [0x20, 0x20, 0x68, 0x69, 0x20, 0x0A]) = strLit "hi" ∧
    read_file ([] : List Byte) = ([] : List Nat) :=
  ⟨(read_file_utf8_stripped (listBytes [0x20, 0x20, 0x68, 0x69, 0x20, 0x0A])
      [0x20, 0x20, 0x68, 0x69, 0x20, 0x0A] rfl).trans rfl,
    (read_file_utf8_stripped [] [] rfl).trans rfl⟩

/-- C4: when every decode-and-parse combination fails, including the final
lossy one, `load_json_file` fails with a JSON error whose message is
composed as "Failed to decode/parse JSON from path: original message" —
so it contains the path and the parser's message as infixes — and whose
document and position are those of the final parse failure, the document
being the lossy best-effort decode of the bytes. -/
theorem load_json_file_final_error (path : List Nat) (data : List Byte)
    (e : JsonError) (h1 : tryEncodings encodings data = none)
    (h2 : jsonLoads (utf8DecodeReplace data) = .error e) :
    load_json_file path data =
      .error ⟨composedMsg path e.msg, e.doc, e.pos⟩ ∧
    path <:+: composedMsg path e.msg ∧
    e.msg <:+: composedMsg path e.msg ∧
    e.doc = utf8DecodeReplace data := by
  refine ⟨?_, ?_, ?_, jsonLoads_doc _ _ h2⟩
  · simp only [load_json_file, loadJsonFrom, h1, h2]
  · exact ⟨strLit "Failed to decode/parse JSON from ", strLit ": " ++ e.msg,
      by simp [composedMsg, List.append_assoc]⟩
  · exact ⟨strLit "Failed to decode/parse JSON from " ++ path ++ strLit ": ",
      [], by simp [composedMsg, List.append_assoc]⟩

theorem load_json_file_final_error_witness :
    load_json_file (strLit "f.json") (listBytes [0xFF]) =
      .error ⟨composedMsg (strLit "f.json") (strLit "Expecting value"),
        [0xFFFD], 0⟩ :=
  (load_json_file_final_error (strLit "f.json") (listBytes [0xFF])
    ⟨strLit "Expecting value", [0xFFFD], 0⟩ rfl rfl).1

/-- C5: when the bytes decode under UTF-8 but the decoded text is not
valid JSON, `load_json_file` behaves exactly like the loader run on the
remaining candidates (UTF-8-with-BOM, cp1252, Latin-1) with the same final
lossy attempt: the parse failure is not distinguished from a decode
failure, so the remaining candidates are still tried before failing. -/
theorem load_json_file_retries_after_parse_error (path : List Nat)
    (data : List Byte) (t : List Nat) (e : JsonError)
    (h1 : utf8Decode data = some t) (h2 : jsonLoads t = .error e) :
    load_json_file path data =
      loadJsonFrom [utf8SigDecode, cp1252Decode, latin1Decode] path data := by
  unfold load_json_file loadJsonFrom
  have hstep : tryEncodings encodings data =
      tryEncodings [utf8SigDecode, cp1252Decode, latin1Decode] data := by
    simp only [encodings, tryEncodings, h1, h2]
  rw [hstep]

theorem load_json_file_retries_after_parse_error_witness :
    load_json_file (strLit "p.json") (listBytes [0x7B]) =
      loadJsonFrom [utf8SigDecode, cp1252Decode, latin1Decode]
        (strLit "p.json") (listBytes [0x7B]) :=
  load_json_file_retries_after_parse_error (strLit "p.json")
    (listBytes [0x7B]) [0x7B]
    ⟨strLit "Expecting property name enclosed in double quotes", [0x7B], 1⟩
    rfl rfl

/-- C6: a failing `open` (missing file, permission denied, ...) is not
caught by either operation: both return the file-system error untouched,
never converted into a decoding or JSON error. -/
theorem file_access_error_propagates (fs : FileSystem) (path : List Nat)
    (h : fs path = none) :
    read_file_io fs path = .error (.osError path) ∧
    load_json_file_io fs path = .error (.osError path) := by
  constructor
  · unfold read_file_io
    rw [h]
  · unfold load_json_file_io
    rw [h]

theorem file_access_error_propagates_witness :
    read_file_io (fun _ => none) (strLit "missing.json") =
      .error (.osError (strLit "missing.json")) ∧
    load_json_file_io (fun _ => none) (strLit "missing.json") =
      .error (.osError (strLit "missing.json")) :=
  file_access_error_propagates (fun _ => none) (strLit "missing.json") rfl

/-- C7: for a file that is a UTF-8 byte-order-mark followed by valid
UTF-8-encoded JSON, `load_json_file` succeeds with the parsed value: the
plain UTF-8 candidate decodes but fails at the parse step on the BOM
character, and the UTF-8-with-BOM candidate then strips the mark and
parses. -/
theorem load_json_file_bom (path : List Nat) (data : List Byte)
    (t : List Nat) (v : Json) (h1 : utf8Decode data = some t)
    (h2 : jsonLoads t = .ok v) :
    load_json_file path (bomBytes ++ data) = .ok v := by
  have ha : utf8Decode (bomBytes ++ data) = some (0xFEFF :: t) := by
    rw [utf8Decode_bom, h1]
    rfl
  have hb := jsonLoads_feff t
  have hc : utf8SigDecode (bomBytes ++ data) = some t := by
    rw [utf8SigDecode_bom, h1]
  simp only [load_json_file, loadJsonFrom, encodings, tryEncodings, ha, hb,
    hc, h2]

theorem load_json_file_bom_witness :
    load_json_file (strLit "bom.json") (bomBytes ++ listBytes [0x31]) =
      .ok (.num [0x31]) :=
  load_json_file_bom (strLit "bom.json") (listBytes [0x31]) [0x31]
    (.num [0x31]) rfl rfl

/-- C8: both operations are deterministic functions of the bytes stored at
the requested path: two runs whose file systems agree on that path — even
if they disagree everywhere else — yield identical results. -/
theorem results_depend_only_on_content (fs fs2 : FileSystem)
    (path : List Nat) (h : fs path = fs2 path) :
    read_file_io fs path = read_file_io fs2 path ∧
    load_json_file_io fs path = load_json_file_io fs2 path := by
  unfold read_file_io load_json_file_io
  rw [h]
  exact ⟨rfl, rfl⟩

theorem results_depend_only_on_content_witness :
    read_file_io (fun p => if p = [] then some (listBytes [0x31]) else none)
        [] =
      read_file_io (fun p => if p = [] then some (listBytes [0x31])
        else some []) [] ∧
    load_json_file_io
        (fun p => if p = [] then some (listBytes [0x31]) else none) [] =
      load_json_file_io (fun p => if p = [] then some (listBytes [0x31])
        else some []) [] :=
  results_depend_only_on_content _ _ [] rfl

/-- C9: the lossy last resort of the text reader is unreachable: strict
Latin-1 decoding succeeds on every byte sequence, so the four-candidate
strict loop always returns — the fallback equals its result — and the
file is opened at most 4 times, never 5. -/
theorem lossy_fallback_unreachable (data : List Byte) :
    readOpenCount data ≤ 4 ∧
    ∃ t, strictChainResult data = some t ∧
      _read_text_with_fallback data = t := by
  constructor
  · unfold readOpenCount
    split_ifs with h1 h2 h3 h4
    · omega
    · omega
    · omega
    · omega
    · exact absurd rfl h4
  · cases h0 : readTextMode utf8Decode data with
    | some t =>
      exact ⟨t, by simp [strictChainResult, encodings, firstStrictRead, h0],
        by simp [_read_text_with_fallback, h0]⟩
    | none =>
      cases h1 : readTextMode utf8SigDecode data with
      | some t =>
        exact ⟨t,
          by simp [strictChainResult, encodings, firstStrictRead, h0, h1],
          by simp [_read_text_with_fallback, h0, h1]⟩
      | none =>
        cases h2 : readTextMode cp1252Decode data with
        | some t =>
          exact ⟨t,
            by simp [strictChainResult, encodings, firstStrictRead, h0, h1,
              h2],
            by simp [_read_text_with_fallback, h0, h1, h2]⟩
        | none =>
          have h3 : readTextMode latin1Decode data =
              some (universalNewlines (data.map Fin.val)) := rfl
          exact ⟨universalNewlines (data.map Fin.val),
            by simp [strictChainResult, encodings, firstStrictRead, h0, h1,
              h2, h3],
            by simp [_read_text_with_fallback, h0, h1, h2, h3]⟩

/-- C10: the two operations treat newlines differently: `read_file` reads
in text mode, so the byte file "a CR LF b" comes back as "a LF b", while
`load_json_file` decodes the raw bytes directly — its UTF-8 decode of the
same file keeps the CR LF pair, and the document recorded in its final
error still contains it. -/
theorem newline_translation_difference :
    read_file (listBytes [0x61, 0x0D, 0x0A, 0x62]) = [0x61, 0x0A, 0x62] ∧
    utf8Decode (listBytes [0x61, 0x0D, 0x0A, 0x62]) =
      some [0x61, 0x0D, 0x0A, 0x62] ∧
    load_json_file (strLit "p") (listBytes [0x61, 0x0D, 0x0A, 0x62]) =
      .error ⟨composedMsg (strLit "p") (strLit "Expecting value"),
        [0x61, 0x0D, 0x0A, 0x62], 0⟩ :=
  ⟨rfl, rfl, rfl⟩
